import Mathlib

/-!
Shallow embedding of the retrieval-and-ranking pipeline of the
slack-design-assistant repository: the tokenizer, the tiered candidate
fetcher, the heuristic scorer, the semantic reranker and the access filter,
translated from `src/supabase.js` (`normalizeAndTokenize`, `searchFiles`),
`src/server.js` (the access gate in the message handler) and `src/ai.js`
(`rerankFilesWithAI`).

Modelling conventions: JS strings are `String`; a nullable string column is
`Option String` (`none` for `null`/`undefined`); JS truthiness of a string
(`x || y`) is "nonempty"; the record store is a list of rows already in
upload-time-descending order (the `order by uploaded_at desc` of every
query); JSON numbers are rationals.  JS `Array.prototype.sort` is stable
and its comparators here induce total preorders, under which every stable
sort returns the same list, so it is modelled by the structurally
recursive stable `List.insertionSort`.
-/

/-- Characters kept by the JS split `/[^a-z0-9]+/` (the query has been
lowercased before the split). -/
def isAlnumLower (c : Char) : Bool :=
  decide (('a' ≤ c ∧ c ≤ 'z') ∨ ('0' ≤ c ∧ c ≤ '9'))

/-- JS `String.prototype.toLowerCase`, modelled per character. -/
def jsToLower (s : String) : String :=
  String.mk (s.data.map Char.toLower)

/-- JS `a || b || ... || ''` over nullable strings: the first truthy
(nonempty) one, else the empty string. -/
def jsOr : List (Option String) → String
  | [] => ""
  | o :: rest =>
    match o with
    | some s => if s.isEmpty then jsOr rest else s
    | none => jsOr rest

/-- Core of JS `s.includes(pat)`: scan for `pat` as a contiguous
subsequence of `s`. -/
def containsSeq (pat : List Char) : List Char → Bool
  | [] => pat.isEmpty
  | c :: s => pat.isPrefixOf (c :: s) || containsSeq pat s

/-- JS `s.includes(pat)` (substring containment). -/
def jsIncludes (s pat : String) : Bool :=
  containsSeq pat.data s.data

/-- JS `s.startsWith(pat)`. -/
def jsStartsWith (s pat : String) : Bool :=
  pat.data.isPrefixOf s.data

/-- The fixed stopword set of `src/supabase.js`. -/
def STOPWORDS : List String :=
  ["a", "an", "the", "and", "or", "but", "if", "then", "else", "when",
   "what", "which", "who", "whom", "this", "that", "those", "these", "is",
   "are", "was", "were", "be", "been", "being", "am", "do", "does", "did",
   "doing", "have", "has", "had", "having", "can", "could", "should",
   "would", "may", "might", "must", "will", "shall", "i", "you", "he",
   "she", "it", "we", "they", "me", "him", "her", "us", "them", "my",
   "your", "our", "their", "to", "from", "in", "on", "at", "for", "of",
   "by", "with", "as", "about", "into", "over", "after", "before", "up",
   "down", "out", "off", "again", "further", "then", "once", "here",
   "there", "why", "how", "hey", "please", "share", "send", "latest",
   "new", "newest"]

/-- `String(queryText || '').toLowerCase().split(/[^a-z0-9]+/).filter(Boolean)`:
the unfiltered raw word sequence of the query. -/
def rawWords (queryText : String) : List String :=
  (((jsToLower queryText).data.splitOnP (fun c => !isAlnumLower c)).filter
      (fun w => !w.isEmpty)).map String.mk

/-- JS `t.endsWith('s') ? t.slice(0, -1) : t` (naive plural stripping). -/
def stripTrailingS (t : String) : String :=
  if t.data.getLast? = some 's' then String.mk t.data.dropLast else t

/-- `normalizeAndTokenize` from `src/supabase.js`: lowercase, split on
non-alphanumeric runs, strip one trailing `s`, keep words of length at
least 3 that are not stopwords; if everything was filtered out, fall back
to the unfiltered raw word sequence. -/
def normalizeAndTokenize (queryText : String) : List String :=
  let all := rawWords queryText
  let tokens := (all.map stripTrailingS).filter
    (fun t => decide (3 ≤ t.length) && !STOPWORDS.contains t)
  if tokens.isEmpty then all else tokens

/-- The `tags` column as the JS code sees it: either an array of strings
(`Array.isArray(r.tags)`), or a nullable string. -/
inductive TagsVal where
  | arr : List String → TagsVal
  | str : Option String → TagsVal
  deriving DecidableEq

/-- A row of the `files` table, restricted to the columns the retrieval
pipeline reads. -/
structure FileRecord where
  workspace_id : String
  file_name : Option String
  name : Option String
  description : Option String
  project : Option String
  tags : TagsVal
  tags_text : Option String
  file_url : String
  privacy : Option String
  allowed_user_emails : List String
  deriving DecidableEq

/-- A candidate paired with its heuristic score (the `{row, score}` objects
built by `scoreList` inside `searchFiles`). -/
structure ScoredRow where
  row : FileRecord
  score : Nat
  deriving DecidableEq

/-- The per-record heuristic score computed by the `scoreList` closure in
`searchFiles`: per token, name contains +8, name starts-with +4, project
contains +3, tags contain +3, description contains +2. -/
def scoreRecord (tokens : List String) (r : FileRecord) : Nat :=
  let name := jsToLower (jsOr [r.file_name, r.name])
  let project := jsToLower (jsOr [r.project])
  let tagsStr :=
    match r.tags with
    | .arr xs => jsToLower (String.intercalate " " xs)
    | .str o => jsToLower (jsOr [o, r.tags_text])
  let desc := jsToLower (jsOr [r.description])
  tokens.foldl
    (fun score t =>
      if t.isEmpty then score
      else
        score + (if jsIncludes name t then 8 else 0)
          + (if jsStartsWith name t then 4 else 0)
          + (if jsIncludes project t then 3 else 0)
          + (if jsIncludes tagsStr t then 3 else 0)
          + (if jsIncludes desc t then 2 else 0))
    0

/-- `scoreList` from `searchFiles`: pair every candidate row with its
heuristic score. -/
def scoreList (tokens : List String) (arr : List FileRecord) : List ScoredRow :=
  arr.map (fun r => { row := r, score := scoreRecord tokens r })

/-- JS `positives.sort((a, b) => b.score - a.score)`: a stable sort by
descending score.  JS `Array.prototype.sort` is stable and the comparator
induces a total preorder, so every stable sorting algorithm returns the
same list; the model uses the structurally recursive stable
`List.insertionSort`. -/
def sortByScoreDesc (xs : List ScoredRow) : List ScoredRow :=
  xs.insertionSort (fun a b => b.score ≤ a.score)

/-- `tokens.slice().sort((a, b) => b.length - a.length)[0] || ''`: the
longest token (ties by original order, since the JS sort is stable). -/
def primaryToken (tokens : List String) : String :=
  ((tokens.insertionSort (fun a b => b.length ≤ a.length)).head?).getD ""

/-- SQL `column ILIKE '%pat%'` on a nullable text column: `NULL` never
matches, otherwise case-insensitive substring containment. -/
def ilikeContains (col : Option String) (pat : String) : Bool :=
  match col with
  | none => false
  | some s => jsIncludes (jsToLower s) (jsToLower pat)

/-- The Tier-1 query of `searchFiles`: workspace-scoped rows whose
`file_name`, `name`, `description`, `project` or `tags_text` contains the
primary token, newest first, capped at 200. -/
def tier1Rows (db : List FileRecord) (workspaceId primary : String) :
    List FileRecord :=
  (db.filter (fun r =>
    r.workspace_id == workspaceId &&
      (ilikeContains r.file_name primary || ilikeContains r.name primary ||
        ilikeContains r.description primary || ilikeContains r.project primary ||
        ilikeContains r.tags_text primary))).take 200

/-- The Tier-2 query of `searchFiles`: the most recent workspace-scoped
rows, capped at 200. -/
def tier2Rows (db : List FileRecord) (workspaceId : String) : List FileRecord :=
  (db.filter (fun r => r.workspace_id == workspaceId)).take 200

/-- The tenant-scoped (Tier 1/2) candidate set of `searchFiles`: the Tier-1
substring query when a primary token exists, else (or when it returns no
rows) the Tier-2 recent-rows query. -/
def tenantCandidates (db : List FileRecord) (queryText workspaceId : String) :
    List FileRecord :=
  let tokens := normalizeAndTokenize queryText
  let primary := primaryToken tokens
  let rows := if primary.isEmpty then [] else tier1Rows db workspaceId primary
  if rows.isEmpty then tier2Rows db workspaceId else rows

/-- Result of one `searchFiles` invocation: the returned rows, plus whether
the unscoped (cross-tenant, Tier-3) legacy query was issued. -/
structure SearchOutcome where
  results : List FileRecord
  legacyQueried : Bool
  deriving DecidableEq

/-- `searchFiles` from `src/supabase.js`.  The record store is the list
`db` of file rows in upload-time-descending order (the `order by` of every
query).  Store-query errors are outside the model: every query is a pure
read that succeeds.  The tenant-scoped candidates are scored; only when no
candidate scores positively is the unscoped legacy query issued and its
rows scored instead; positively scored rows are sorted by descending score
(stable) and truncated to `limit`. -/
def searchFilesFull (db : List FileRecord) (queryText workspaceId : String)
    (limit : Nat) : SearchOutcome :=
  let tokens := normalizeAndTokenize queryText
  let scoredPrimary :=
    (scoreList tokens (tenantCandidates db queryText workspaceId)).filter
      (fun x => decide (0 < x.score))
  if scoredPrimary.isEmpty then
    let scoredLegacy :=
      (scoreList tokens (db.take 200)).filter (fun x => decide (0 < x.score))
    { results := ((sortByScoreDesc scoredLegacy).map ScoredRow.row).take limit,
      legacyQueried := true }
  else
    { results := ((sortByScoreDesc scoredPrimary).map ScoredRow.row).take limit,
      legacyQueried := false }

/-- The access-gate predicate of the message handler in `src/server.js`
(`results.filter(f => ...)`).  `userEmail` is `none` when Slack supplies no
profile email; a present empty string is falsy in JS, exactly as in the
source's `userEmail && allowed.includes(...)`. -/
def accessPred (userEmail : Option String) (f : FileRecord) : Bool :=
  let p := f.privacy.getD ""
  if p == "" || p == "public" || p == "company" then true
  else
    let allowed := f.allowed_user_emails.map jsToLower
    match userEmail with
    | none => false
    | some e => !e.isEmpty && allowed.contains (jsToLower e)

/-- The `accessible` filter of the message handler. -/
def accessibleFilter (results : List FileRecord) (userEmail : Option String) :
    List FileRecord :=
  results.filter (accessPred userEmail)

/-- The access rule as the (amended) specification states it: a record
passes if it has no privacy classification (absent or empty), or
classification `public` or `company`; otherwise only if a nonempty
requester email is supplied whose lowercase form is in the record's
lowercased permitted-email set. -/
def specAccessRule (userEmail : Option String) (f : FileRecord) : Bool :=
  match f.privacy with
  | none => true
  | some p =>
    p == "" || p == "public" || p == "company" ||
      (match userEmail with
       | none => false
       | some e =>
         !e.isEmpty && (f.allowed_user_emails.map jsToLower).contains (jsToLower e))

/-- One entry of the `ranked` array of the reasoning-service response:
`index` is `some` exactly when the JSON field is a number (JSON numbers are
modelled as rationals), `score` likewise. -/
structure RankedEntry where
  index : Option Rat
  score : Option Rat
  deriving DecidableEq

/-- Outcome of the reasoning-service call as `rerankFilesWithAI` sees it:
either the response text fails `JSON.parse`, or it parses, with the
argument holding the `ranked` field when that field is an array. -/
inductive AIResponse where
  | unparseable : AIResponse
  | parsed : Option (List RankedEntry) → AIResponse

/-- `Array.from(new Set(order))`: deduplicate keeping first occurrences. -/
def dedupKeepFirst (seen : List Rat) : List Rat → List Rat
  | [] => []
  | a :: rest =>
    if seen.contains a then dedupKeepFirst seen rest
    else a :: dedupKeepFirst (a :: seen) rest

/-- JS array indexing `candidates[i]` by a JSON number: `undefined`
(`none`) unless `i` is an integer within bounds. -/
def jsIndex (l : List FileRecord) (i : Rat) : Option FileRecord :=
  if i.den = 1 ∧ 0 ≤ i.num then l[i.num.toNat]? else none

/-- `rerankFilesWithAI` from `src/ai.js`, as a function of the parsed
reasoning-service response (the request serialization does not influence
the returned value; the `!client` guard is omitted because the caller only
invokes the function when AI is enabled; a transport error from the
service propagates and is outside this model).  The JS result array can
contain `undefined` entries (`candidates[i]` at a fractional index), so
the output lists `Option FileRecord`: genuine records appear as `some`,
`undefined` as `none`. -/
def rerankFilesWithAI (candidates : List FileRecord) (topK : Nat)
    (resp : AIResponse) : List (Option FileRecord) :=
  if candidates.isEmpty then candidates.map some
  else
    match resp with
    | .unparseable => candidates.map some
    | .parsed rankedOpt =>
      let ranked := rankedOpt.getD []
      let order := ((ranked.filter (fun r => r.index.isSome)).insertionSort
        (fun a b => b.score.getD 0 ≤ a.score.getD 0)).map
          (fun r => r.index.getD 0)
      let unique := (dedupKeepFirst [] order).filter
        (fun i => decide (0 ≤ i) && decide (i < (candidates.length : Rat)))
      let reordered := unique.map (fun i => jsIndex candidates i)
      let withMissing := reordered ++
        ((List.range candidates.length).filter
          (fun i => !unique.contains ((i : Nat) : Rat))).map
            (fun i => candidates[i]?)
      withMissing.take topK

/-- The record of the ORCA scenario in the specification: named
`"ORCA Dashboard Mockup v2"` with no tags, project or description. -/
def orcaRec : FileRecord :=
  { workspace_id := "W1", file_name := some "ORCA Dashboard Mockup v2",
    name := none, description := none, project := none, tags := .str none,
    tags_text := none, file_url := "https://files.example/orca",
    privacy := none, allowed_user_emails := [] }

/-- A sample record used as concrete input. -/
def fileA : FileRecord :=
  { workspace_id := "W1", file_name := some "Homepage Design",
    name := none, description := none, project := none, tags := .str none,
    tags_text := none, file_url := "https://files.example/a",
    privacy := none, allowed_user_emails := [] }

/-- A second sample record used as concrete input. -/
def fileB : FileRecord :=
  { workspace_id := "W1", file_name := some "Login Screen",
    name := none, description := none, project := none, tags := .str none,
    tags_text := none, file_url := "https://files.example/b",
    privacy := none, allowed_user_emails := [] }

/-- A restricted record whose permitted-email set contains the empty
string. -/
def restrictedRec : FileRecord :=
  { workspace_id := "W1", file_name := some "Secret Mock",
    name := none, description := none, project := none, tags := .str none,
    tags_text := none, file_url := "https://files.example/s",
    privacy := some "restricted", allowed_user_emails := [""] }

/-- A fold that adds a per-element contribution can be started anywhere:
the accumulator shifts out additively. -/
theorem foldl_add_shift {α : Type} (f : Nat → α → Nat)
    (hs : ∀ n m t, f (n + m) t = n + f m t) :
    ∀ (l : List α) (n : Nat), l.foldl f n = n + l.foldl f 0
  | [], n => by simp
  | t :: l, n => by
    rw [List.foldl_cons, List.foldl_cons,
      foldl_add_shift f hs l (f n t), foldl_add_shift f hs l (f 0 t)]
    have h1 : f n t = n + f 0 t := by simpa using hs n 0 t
    omega

/-- Claim C10: the heuristic score is additive over tokens: the score
against a concatenation of token lists is the sum of the scores against
each part. -/
theorem scoreRecord_additive (A B : List String) (r : FileRecord) :
    scoreRecord (A ++ B) r = scoreRecord A r + scoreRecord B r := by
  simp only [scoreRecord]
  rw [List.foldl_append]
  refine foldl_add_shift _ ?_ B _
  intro n m t
  by_cases h : t.isEmpty
  · simp [h]
  · simp only [h, if_true, if_false, Bool.false_eq_true]
    ring

/-- Claim C1: in every `searchFiles` invocation the unscoped (cross-tenant)
Tier-3 legacy query is issued exactly when heuristic scoring of the
tenant-scoped Tier-1/2 candidate set yields no record with positive score;
whenever some tenant-scoped candidate scores positively, no unscoped query
is performed. -/
theorem legacy_query_iff_no_positive_tenant_score
    (db : List FileRecord) (queryText workspaceId : String) (limit : Nat) :
    (searchFilesFull db queryText workspaceId limit).legacyQueried = true ↔
      ∀ x ∈ scoreList (normalizeAndTokenize queryText)
          (tenantCandidates db queryText workspaceId), ¬ 0 < x.score := by
  have h : (searchFilesFull db queryText workspaceId limit).legacyQueried =
      ((scoreList (normalizeAndTokenize queryText)
          (tenantCandidates db queryText workspaceId)).filter
        (fun x => decide (0 < x.score))).isEmpty := by
    simp only [searchFilesFull]
    split <;> simp_all
  rw [h, List.isEmpty_iff, List.filter_eq_nil_iff]
  simp

/-- Claim C9: when no candidate fetched by any fallback tier — neither the
tenant-scoped Tier-1/2 candidate set nor the (up to 200-row) unscoped
legacy window — attains a positive heuristic score, `searchFiles` returns
the empty list normally (store-query errors are outside the model: every
query succeeds). -/
theorem search_no_positive_returns_empty
    (db : List FileRecord) (queryText workspaceId : String) (limit : Nat)
    (h1 : ∀ r ∈ tenantCandidates db queryText workspaceId,
      ¬ 0 < scoreRecord (normalizeAndTokenize queryText) r)
    (h2 : ∀ r ∈ db.take 200,
      ¬ 0 < scoreRecord (normalizeAndTokenize queryText) r) :
    (searchFilesFull db queryText workspaceId limit).results = [] := by
  have hzero : ∀ (l : List FileRecord),
      (∀ r ∈ l, ¬ 0 < scoreRecord (normalizeAndTokenize queryText) r) →
      (scoreList (normalizeAndTokenize queryText) l).filter
        (fun x => decide (0 < x.score)) = [] := by
    intro l hl
    rw [List.filter_eq_nil_iff]
    intro x hx
    obtain ⟨r, hr, rfl⟩ := List.mem_map.mp hx
    simpa using hl r hr
  simp only [searchFilesFull]
  rw [hzero _ h1, hzero _ h2]
  simp [sortByScoreDesc, List.insertionSort]

/-- Witness for C9 at a concrete input: a one-record store and a query
matching nothing, so no tier's candidate scores positively. -/
theorem search_no_positive_returns_empty_witness :
    (searchFilesFull [fileA] "zzz" "W1" 10).results = [] :=
  search_no_positive_returns_empty [fileA] "zzz" "W1" 10 (by decide) (by decide)

/-- Counterexample to claim C2 as stated: a restricted record whose
permitted-email set contains the requester's email (the empty string,
trivially case-insensitively) is nevertheless dropped, because the JS
guard `userEmail && ...` treats an empty supplied email as falsy. -/
theorem accessFilter_empty_email_counterexample :
    restrictedRec.privacy = some "restricted" ∧
    restrictedRec.allowed_user_emails.contains "" = true ∧
    accessibleFilter [restrictedRec] (some "") = [] := by decide

/-- Claim C2 (amended): the access filter returns the order-preserving
subsequence of exactly those records that have no privacy classification
(absent or empty), or classification `public` or `company`, or whose
permitted-email set contains the requester's email case-insensitively —
where a supplied empty-string requester email is treated as absent, so it
never satisfies the allow-list disjunct. -/
theorem accessFilter_exactly_rule (records : List FileRecord)
    (userEmail : Option String) :
    List.Sublist (accessibleFilter records userEmail) records ∧
    accessibleFilter records userEmail =
      records.filter (specAccessRule userEmail) := by
  refine ⟨List.filter_sublist _, List.filter_congr ?_⟩
  intro f _
  simp only [accessPred, specAccessRule]
  cases hp : f.privacy with
  | none => simp
  | some p =>
    by_cases hc : (p == "" || p == "public" || p == "company") = true
    · simp only [Option.getD_some]
      rw [if_pos]
      · rcases Bool.or_eq_true_iff.mp hc with h | h
        · rcases Bool.or_eq_true_iff.mp h with h' | h' <;> simp [h']
        · simp [h]
      · rcases Bool.or_eq_true_iff.mp hc with h | h
        · rcases Bool.or_eq_true_iff.mp h with h' | h' <;> simp [h']
        · simp [h]
    · simp only [Bool.or_eq_true_iff, not_or] at hc
      obtain ⟨⟨h1, h2⟩, h3⟩ := hc
      simp only [Option.getD_some]
      rw [if_neg]
      · cases userEmail <;>
          simp [Bool.eq_false_iff.mpr h1, Bool.eq_false_iff.mpr h2,
            Bool.eq_false_iff.mpr h3]
      · simp [Bool.eq_false_iff.mpr h1, Bool.eq_false_iff.mpr h2,
          Bool.eq_false_iff.mpr h3]

/-- Counterexample to claim C3 as stated: in the ORCA scenario the tokens
are exactly {"orca","dashboard","mockup"}, yet the record's heuristic
score is below 36, because only "orca" (which the name starts with) earns
the starts-with +4; "dashboard" and "mockup" earn the contains +8 only. -/
theorem orca_scenario_counterexample :
    normalizeAndTokenize "ORCA dashboard mockup" = ["orca", "dashboard", "mockup"] ∧
    ¬ 36 ≤ scoreRecord ["orca", "dashboard", "mockup"] orcaRec := by decide

/-- Claim C3 (amended): in the ORCA scenario the record scores exactly
28 = (8+4)+8+8 — contains +8 for each of the three tokens plus starts-with
+4 for "orca" only — hence at least 28, and the record is returned first
by `searchFiles`. -/
theorem orca_scenario_amended :
    scoreRecord (normalizeAndTokenize "ORCA dashboard mockup") orcaRec = 28 ∧
    ((searchFilesFull [orcaRec] "ORCA dashboard mockup" "W1" 10).results).head? =
      some orcaRec := by decide

/-- Claim C4: evaluation of `rerankFilesWithAI` at the failing input: a
response entry whose `index` is the non-integer number 1/2 passes the
`typeof r.index === 'number'` filter and the `i >= 0 && i < length` range
check, so `candidates[0.5]` — `undefined`, modelled `none` — is placed in
the output, an element absent from the input candidate list. -/
theorem rerank_fractional_index_yields_undefined :
    rerankFilesWithAI [fileA, fileB] 5
        (.parsed (some [{ index := some (mkRat 1 2), score := some 1 }])) =
      [none, some fileA, some fileB] ∧
    ([fileA, fileB].map some).contains none = false := by decide

/-- Counterexample to claim C5 as stated: with two candidates and
`topK = 1`, an unparseable response makes `rerankFilesWithAI` return the
whole input, of length 2 > 1. -/
theorem rerank_unparseable_exceeds_topK :
    ¬ (rerankFilesWithAI [fileA, fileB] 1 .unparseable).length ≤ 1 := by decide

/-- Claim C5 (amended): whenever the reasoning-service response parses as
structured data, the output of `rerankFilesWithAI` has length at most
`topK`; when the response is unparseable the whole input list is returned,
so the length is the candidate count, which can exceed `topK`. -/
theorem rerank_length_le_topK (candidates : List FileRecord) (topK : Nat)
    (rankedOpt : Option (List RankedEntry)) :
    (rerankFilesWithAI candidates topK (.parsed rankedOpt)).length ≤ topK ∧
    rerankFilesWithAI candidates topK .unparseable = candidates.map some := by
  constructor
  · simp only [rerankFilesWithAI]
    split
    · next hc =>
      rw [List.isEmpty_iff] at hc
      subst hc
      simp
    · exact List.length_take_le _ _
  · simp only [rerankFilesWithAI]
    split <;> rfl

/-- Every position of a list, looked up optionally in order, gives the
list with every element wrapped in `some`. -/
theorem range_map_getElem {α : Type} (l : List α) :
    (List.range l.length).map (fun i => l[i]?) = l.map some := by
  induction l with
  | nil => rfl
  | cons a t ih =>
    rw [List.length_cons, List.range_succ_eq_map, List.map_cons,
      List.map_map, List.map_cons, List.getElem?_cons_zero]
    refine congrArg (some a :: ·) ?_
    rw [← ih]
    exact List.map_congr_left (fun i _ => by simp [Function.comp])

/-- Counterexample to claim C6 as stated: with two candidates and
`topK = 1`, a response that parses but has no `ranked` array makes
`rerankFilesWithAI` return the original order truncated to `topK`, not the
input unchanged. -/
theorem rerank_no_array_truncates_counterexample :
    rerankFilesWithAI [fileA, fileB] 1 (.parsed none) ≠ [fileA, fileB].map some := by
  decide

/-- Claim C6 (amended): on an unparseable response `rerankFilesWithAI`
returns its input unchanged; on a response that parses but contains no
usable ranked entry (no `ranked` array, or no entry with a numeric
`index`) it returns the original candidate order truncated to `topK`. -/
theorem rerank_degrades_gracefully (candidates : List FileRecord) (topK : Nat)
    (rankedOpt : Option (List RankedEntry))
    (h : (rankedOpt.getD []).filter (fun r => r.index.isSome) = []) :
    rerankFilesWithAI candidates topK .unparseable = candidates.map some ∧
    rerankFilesWithAI candidates topK (.parsed rankedOpt) =
      (candidates.map some).take topK := by
  constructor
  · simp only [rerankFilesWithAI]
    split <;> rfl
  · simp only [rerankFilesWithAI]
    split
    · next hc =>
      rw [List.isEmpty_iff] at hc
      subst hc
      simp
    · rw [h]
      simp only [List.insertionSort, List.map_nil, dedupKeepFirst,
        List.filter_nil, List.nil_append]
      rw [List.filter_eq_self.mpr (fun i _ => by simp [List.contains]),
        range_map_getElem]

/-- Witness for C6 at a concrete input: one candidate, `topK = 2`, an
unparseable response and a parsed response without a ranked array. -/
theorem rerank_degrades_gracefully_witness :
    rerankFilesWithAI [fileA] 2 .unparseable = [some fileA] ∧
    rerankFilesWithAI [fileA] 2 (.parsed none) = [some fileA] := by
  have h := rerank_degrades_gracefully [fileA] 2 none rfl
  exact ⟨h.1, h.2⟩

/-- Splitting a list on a predicate leaves no nonempty chunk exactly when
every element is a separator. -/
theorem filter_splitOnP_eq_nil_iff (p : Char → Bool) (l : List Char) :
    (l.splitOnP p).filter (fun w => !w.isEmpty) = [] ↔ ∀ c ∈ l, p c = true := by
  induction l with
  | nil => simp [List.splitOnP_nil]
  | cons x xs ih =>
    rw [List.splitOnP_cons]
    by_cases hx : p x
    · simpa [hx] using ih
    · obtain ⟨h, t, e⟩ : ∃ h t, xs.splitOnP p = h :: t := by
        rcases hxs : xs.splitOnP p with _ | ⟨h, t⟩
        · exact absurd hxs (List.splitOnP_ne_nil p xs)
        · exact ⟨h, t, rfl⟩
      simp [hx, e]

/-- The raw word sequence is empty exactly when the lowercased query has no
alphanumeric character. -/
theorem rawWords_eq_nil_iff (q : String) :
    rawWords q = [] ↔ ∀ c ∈ (jsToLower q).data, isAlnumLower c = false := by
  unfold rawWords
  rw [List.map_eq_nil_iff, filter_splitOnP_eq_nil_iff]
  simp

/-- Counterexample to claim C7 as stated: every word of the query "does"
is a stopword, yet `normalizeAndTokenize` does not return the raw word
sequence ["does"], because the stopword test runs after the trailing-s
strip and "doe" is neither short nor a stopword. -/
theorem tokenize_stopword_counterexample :
    STOPWORDS.contains "does" = true ∧
    rawWords "does" = ["does"] ∧
    normalizeAndTokenize "does" = ["doe"] ∧
    normalizeAndTokenize "does" ≠ ["does"] := by decide

/-- Claim C7 (amended): for every query whose raw words, after the
trailing-s strip, are all shorter than 3 characters or stopwords, the
tokenizer returns the unfiltered raw word sequence; and (for such queries)
the result is empty exactly when the query has no alphanumeric content. -/
theorem tokenize_fallback (q : String)
    (h : ∀ w ∈ rawWords q,
      (stripTrailingS w).length < 3 ∨
        STOPWORDS.contains (stripTrailingS w) = true) :
    normalizeAndTokenize q = rawWords q ∧
    (normalizeAndTokenize q = [] ↔
      ∀ c ∈ (jsToLower q).data, isAlnumLower c = false) := by
  have htok : ((rawWords q).map stripTrailingS).filter
      (fun t => decide (3 ≤ t.length) && !STOPWORDS.contains t) = [] := by
    rw [List.filter_eq_nil_iff]
    intro t ht
    obtain ⟨w, hw, rfl⟩ := List.mem_map.mp ht
    rcases h w hw with h1 | h1
    · simp only [Bool.and_eq_true, decide_eq_true_eq, not_and]
      intro hlen
      omega
    · simp only [Bool.and_eq_true, decide_eq_true_eq, not_and]
      intro hlen
      simpa using h1
  have hnt : normalizeAndTokenize q = rawWords q := by
    simp only [normalizeAndTokenize]
    rw [htok]
    rfl
  exact ⟨hnt, by rw [hnt]; exact rawWords_eq_nil_iff q⟩

/-- Witness for C7 at a concrete input: the query "as", whose only word
strips to "a" (shorter than 3 characters). -/
theorem tokenize_fallback_witness :
    normalizeAndTokenize "as" = rawWords "as" ∧
    (normalizeAndTokenize "as" = [] ↔
      ∀ c ∈ (jsToLower "as").data, isAlnumLower c = false) :=
  tokenize_fallback "as" (by decide)

/-- Claim C8: the ranking sort orders by descending score and is stable:
for every score value, the candidates carrying that score appear in the
output in exactly their original (fetch) order. -/
theorem sort_desc_and_stable (xs : List ScoredRow) (s : Nat) :
    (sortByScoreDesc xs).Pairwise (fun a b => b.score ≤ a.score) ∧
    (sortByScoreDesc xs).filter (fun x => x.score == s) =
      xs.filter (fun x => x.score == s) := by
  have htot : IsTotal ScoredRow (fun a b => b.score ≤ a.score) :=
    ⟨fun a b => (Nat.le_total a.score b.score).symm⟩
  have htrans : IsTrans ScoredRow (fun a b => b.score ≤ a.score) :=
    ⟨fun a b c hab hbc => Nat.le_trans hbc hab⟩
  constructor
  · exact @List.sorted_insertionSort _ _ _ htot htrans xs
  · have hmem : ∀ a ∈ xs.filter (fun x => x.score == s), a.score = s := by
      intro a ha
      have := (List.mem_filter.mp ha).2
      simpa using this
    have hpw : (xs.filter (fun x => x.score == s)).Pairwise
        (fun a b => b.score ≤ a.score) :=
      List.pairwise_of_forall_mem_list
        (fun a ha b hb => by rw [hmem a ha, hmem b hb])
    have hsl : List.Sublist (xs.filter (fun x => x.score == s))
        (sortByScoreDesc xs) :=
      List.sublist_insertionSort hpw (List.filter_sublist xs)
    have heq : (xs.filter (fun x => x.score == s)).filter
        (fun x => x.score == s) = xs.filter (fun x => x.score == s) :=
      List.filter_eq_self.mpr (fun a ha => (List.mem_filter.mp ha).2)
    have hsl2 : List.Sublist (xs.filter (fun x => x.score == s))
        ((sortByScoreDesc xs).filter (fun x => x.score == s)) :=
      heq ▸ hsl.filter (fun x => x.score == s)
    have hperm : List.Perm ((sortByScoreDesc xs).filter (fun x => x.score == s))
        (xs.filter (fun x => x.score == s)) :=
      (List.perm_insertionSort _ xs).filter _
    exact (hsl2.eq_of_length hperm.length_eq.symm).symm
